import Mathlib

/-!
# Verification of the GitHub trending-developers crawler (`src/main.py`)

Shallow embedding of the script's pure logic.  Python strings are modelled
as `List Char` (Python strings are sequences of code points; `len`, slicing
`s[:n]`, concatenation and `strip()` become `List.length`, `List.take`,
`++` and `pyStrip`).  The parsed HTML document is a tree of `Node`s with
the three capabilities the script uses through BeautifulSoup: descendant
search by tag and class (`find` / `find_all`), attribute lookup (`get`),
and text content (`get_text`).  Timestamps (`datetime.now()`) are passed
in as parameters, and filesystem / network effects are passed in as
explicit `Except` outcomes, so every function is total and executable.
-/

/-! ## Python string primitives -/

/-- Python `str.strip()`: drop whitespace at both ends, leaving internal
whitespace untouched. -/
def pyStrip (l : List Char) : List Char :=
  ((l.dropWhile Char.isWhitespace).reverse.dropWhile Char.isWhitespace).reverse

/-- Python f-string interpolation of an optional value: `None` renders as
the four characters `None` (this is what `f"...{link.get('href')}"` does
when the attribute is absent). -/
def pyStrOfOpt (o : Option (List Char)) : List Char :=
  match o with
  | some s => s
  | none => "None".toList

/-! ## The markup tree and the BeautifulSoup operations used -/

/-- A node of the parsed markup: either a text node or an element with a
tag name, the raw `class` attribute string, other attributes, and
children in document order. -/
inductive Node where
  | text (s : List Char)
  | elem (tag : String) (classAttr : String) (attrs : List (String × List Char)) (children : List Node)

/-- Split a character list on single spaces (how an HTML `class`
attribute value lists its classes). -/
def splitOnSpaces : List Char → List (List Char)
  | [] => [[]]
  | c :: rest =>
    match splitOnSpaces rest with
    | [] => [[]]
    | w :: ws => if c = ' ' then [] :: w :: ws else (c :: w) :: ws

/-- BeautifulSoup class matching for a `class_` argument: a selector
matches if it equals one of the element's classes (the `class` attribute
split on spaces) or the whole attribute string (the multi-class exact
form used for `'f6 color-fg-muted mt-1'`). -/
def classMatches (sel : String) (classAttr : String) : Bool :=
  (splitOnSpaces classAttr.toList).contains sel.toList || classAttr == sel

/-- Does a node match a tag name and an optional `class_` selector? -/
def Node.matchesSel (n : Node) (tag : String) (cls : Option String) : Bool :=
  match n with
  | .text _ => false
  | .elem t c _ _ =>
    t == tag && (match cls with
                 | none => true
                 | some s => classMatches s c)

mutual

/-- All descendants of a node in document (preorder) order; a node is not
its own descendant, matching BeautifulSoup `find`/`find_all` which search
strictly below the node they are called on. -/
def Node.descendants : Node → List Node
  | .text _ => []
  | .elem _ _ _ ch => descList ch

/-- Preorder traversal of a forest: each root followed by its descendants. -/
def descList : List Node → List Node
  | [] => []
  | n :: rest => n :: Node.descendants n ++ descList rest

end

/-- `node.find_all(tag, class_=cls)`: all matching descendants in document
order. -/
def Node.findAll (n : Node) (tag : String) (cls : Option String) : List Node :=
  n.descendants.filter (fun d => d.matchesSel tag cls)

/-- `node.find(tag, class_=cls)`: the first matching descendant, if any. -/
def Node.findSel (n : Node) (tag : String) (cls : Option String) : Option Node :=
  (n.findAll tag cls).head?

/-- `node.get(key)`: attribute lookup, `None` when absent. -/
def Node.getAttr (n : Node) (k : String) : Option (List Char) :=
  match n with
  | .text _ => none
  | .elem _ _ attrs _ =>
    match attrs.lookup k with
    | some v => some v
    | none => none

mutual

/-- `node.get_text()`: concatenation of all text in the subtree, in
document order. -/
def Node.getText : Node → List Char
  | .text s => s
  | .elem _ _ _ ch => getTextList ch

/-- Text content of a forest. -/
def getTextList : List Node → List Char
  | [] => []
  | n :: rest => Node.getText n ++ getTextList rest

end

/-! ## The record schema (`developer` dict of `scrape_trending_developers`) -/

/-- One scraped developer record: exactly the 8 keys the script assigns. -/
structure Developer where
  rank : Nat
  name : List Char
  username : List Char
  profile_url : List Char
  avatar_url : List Char
  popular_repo : List Char
  repo_description : List Char
  scraped_at : List Char
deriving Repr, DecidableEq, Inhabited

/-- The fixed origin prefixed to profile hrefs (`f"https://github.com{...}"`). -/
def githubOrigin : List Char := "https://github.com".toList

/-! ## Per-field extraction (lines 52–91 of `main.py`) -/

/-- Lines 52–63: the `h1.h3` heading gives `name` and `profile_url`.
If the heading holds a link, `name` is the link's stripped text and
`profile_url` is the origin plus the raw `href` (a missing `href`
interpolates as `None`); a heading without a link gives its own stripped
text and an empty URL; no heading gives two empty fields. -/
def extractName (element : Node) : List Char × List Char :=
  match element.findSel "h1" (some "h3") with
  | some name_link =>
    match name_link.findSel "a" none with
    | some link =>
      (pyStrip link.getText, githubOrigin ++ pyStrOfOpt (link.getAttr "href"))
    | none => (pyStrip name_link.getText, [])
  | none => ([], [])

/-- Lines 65–70: `username` is the stripped text of the link inside the
`p.f4` node, or empty if the node or its link is absent. -/
def extractUsername (element : Node) : List Char :=
  match element.findSel "p" (some "f4") with
  | some username_element =>
    match username_element.findSel "a" none with
    | some username_link => pyStrip username_link.getText
    | none => []
  | none => []

/-- Lines 72–73: `avatar_url` is the `img.avatar-user` node's `src`
attribute verbatim (defaulting to empty), or empty if the node is absent. -/
def extractAvatar (element : Node) : List Char :=
  match element.findSel "img" (some "avatar-user") with
  | some avatar_img => (avatar_img.getAttr "src").getD []
  | none => []

/-- Lines 77–85: `popular_repo` within the nested article: stripped link
text of its `h1.h4` heading, else the heading's stripped text, else
empty. -/
def extractRepoName (repo_article : Node) : List Char :=
  match repo_article.findSel "h1" (some "h4") with
  | some repo_name_elem =>
    match repo_name_elem.findSel "a" none with
    | some repo_link => pyStrip repo_link.getText
    | none => pyStrip repo_name_elem.getText
  | none => []

/-- Lines 87–88: `repo_description` within the nested article. -/
def extractRepoDesc (repo_article : Node) : List Char :=
  match repo_article.findSel "div" (some "f6 color-fg-muted mt-1") with
  | some repo_desc_elem => pyStrip repo_desc_elem.getText
  | none => []

/-- Lines 75–91 assembled: both fields empty when the nested article is
absent. -/
def extractRepo (element : Node) : List Char × List Char :=
  match element.findSel "article" none with
  | some repo_article => (extractRepoName repo_article, extractRepoDesc repo_article)
  | none => ([], [])

/-- Lines 50–94: the full per-row record, with `rank = i + 1` for the row
at 0-based index `i` and the capture timestamp passed in for
`datetime.now().isoformat()`. -/
def parseDeveloper (now : List Char) (i : Nat) (element : Node) : Developer :=
  { rank := i + 1
    name := (extractName element).1
    profile_url := (extractName element).2
    username := extractUsername element
    avatar_url := extractAvatar element
    popular_repo := (extractRepo element).1
    repo_description := (extractRepo element).2
    scraped_at := now }

/-! ## The extraction loop (lines 48–99) -/

/-- Is a row retained?  Line 93: `if developer['name'] or developer['username']`
— Python string truthiness, i.e. at least one of the two is non-empty. -/
def retained (d : Developer) : Bool :=
  !d.name.isEmpty || !d.username.isEmpty

/-- The `for i, element in enumerate(...)` loop with its per-row
`try/except`: each row's processing may fail (`Except.error`), in which
case the row is skipped and the loop continues; a successful row is
appended only when `retained` holds. -/
def scrapeRows (parse : Nat → Node → Except String Developer) :
    Nat → List Node → List Developer
  | _, [] => []
  | i, e :: rest =>
    match parse i e with
    | .ok d =>
      if retained d then d :: scrapeRows parse (i + 1) rest
      else scrapeRows parse (i + 1) rest
    | .error _ => scrapeRows parse (i + 1) rest

/-- The loop instantiated with the script's row parser, which in this pure
embedding always succeeds. -/
def scrapeDevelopers (now : List Char) (elements : List Node) : List Developer :=
  scrapeRows (fun i e => Except.ok (parseDeveloper now i e)) 0 elements

/-- The candidate sequence: every row parsed in order, before the
name/username filter; the row at 0-based position `j` (counting from
offset `i`) carries rank `i + j + 1`. -/
def candidatesFrom (now : List Char) : Nat → List Node → List Developer
  | _, [] => []
  | i, e :: rest => parseDeveloper now i e :: candidatesFrom now (i + 1) rest

/-- Candidates of the whole listing, from offset 0. -/
def candidates (now : List Char) (elements : List Node) : List Developer :=
  candidatesFrom now 0 elements

/-! ## Persistence writers (`save_to_csv`, `save_to_json`) -/

/-- The fixed CSV column order (line 114 of `main.py`). -/
def csvFieldnames : List (List Char) :=
  ["rank", "username", "name", "repo_description", "avatar_url",
   "profile_url", "popular_repo", "scraped_at"].map String.toList

/-- One CSV data row: the record's values in the fixed column order, the
rank rendered in decimal. -/
def csvRowOf (d : Developer) : List (List Char) :=
  [(toString d.rank).toList, d.username, d.name, d.repo_description,
   d.avatar_url, d.profile_url, d.popular_repo, d.scraped_at]

/-- The CSV file content: header row, then one row per record in order. -/
def csvContent (developers : List Developer) : List (List (List Char)) :=
  csvFieldnames :: developers.map csvRowOf

/-- `save_to_csv` (lines 110–124): returns `False` immediately on an empty
record list without touching the file; otherwise attempts the write, whose
I/O outcome is the explicit `ioResult` — `try/except` turns an I/O error
into the return value `False`.  The second component is the file written
(`none` when no file is produced). -/
def save_to_csv (developers : List Developer) (ioResult : Except String Unit) :
    Bool × Option (List (List (List Char))) :=
  if developers.isEmpty then (false, none)
  else
    match ioResult with
    | .ok _ => (true, some (csvContent developers))
    | .error _ => (false, none)

/-- The JSON document of `save_to_json` (lines 130–134): a single object
with exactly the keys `scraped_at`, `total_developers`, `developers`. -/
structure JsonDoc where
  scraped_at : List Char
  total_developers : Nat
  developers : List Developer
deriving Repr, DecidableEq

/-- `save_to_json` (lines 126–142): `False` immediately on an empty record
list; otherwise builds the envelope with `total_developers = len(developers)`
and attempts the write under the same `try/except` contract as the CSV
writer. -/
def save_to_json (developers : List Developer) (now : List Char)
    (ioResult : Except String Unit) : Bool × Option JsonDoc :=
  if developers.isEmpty then (false, none)
  else
    match ioResult with
    | .ok _ =>
      (true, some { scraped_at := now
                    total_developers := developers.length
                    developers := developers })
    | .error _ => (false, none)

/-! ## Reporter (`display_results`, lines 144–170) -/

/-- Per-column truncation (lines 161–164):
`s[:b] + "..." if len(s) > b else s`. -/
def truncateField (s : List Char) (b : Nat) : List Char :=
  if s.length > b then s.take b ++ "...".toList else s

/-- One rendered table row: rank in decimal, then the four text columns
with their fixed budgets (username 18, name 23, popular repo 23,
description 28). -/
def displayRow (d : Developer) : List (List Char) :=
  [(toString d.rank).toList,
   truncateField d.username 18,
   truncateField d.name 23,
   truncateField d.popular_repo 23,
   truncateField d.repo_description 28]

/-- What the reporter emits: a "no data" indication, or a table of at most
10 rows plus, when more records remain, the count of the remainder. -/
inductive ReportOutput where
  | noData
  | table (rows : List (List (List Char))) (more : Option Nat)
deriving Repr, DecidableEq

/-- `display_results`: empty input prints only the "no data" message;
otherwise the first 10 records are rendered and a `... and k more` line is
added when more than 10 records were passed. -/
def display_results (developers : List Developer) : ReportOutput :=
  if developers.isEmpty then .noData
  else
    .table ((developers.take 10).map displayRow)
      (if developers.length > 10 then some (developers.length - 10) else none)

/-! ## Orchestrator (`scrape_trending_developers`'s fetch and `main`) -/

/-- The run's environment: the fetch outcome (the parsed document on
success, the `requests` exception message on timeout / network failure /
`raise_for_status`), the run timestamp, and the two writers' I/O
outcomes. -/
structure RunEnv where
  fetchResult : Except String Node
  now : List Char
  csvWrite : Except String Unit
  jsonWrite : Except String Unit

/-- `scrape_trending_developers` (lines 28–108): on a successful fetch,
`find_all('article', class_='Box-row')` selects the rows and the loop
extracts the records; a `RequestException` is caught, surfaced as a
printed error message (returned here alongside the records), and an empty
list is returned. -/
def scrape_trending_developers (env : RunEnv) : List Developer × Option String :=
  match env.fetchResult with
  | .ok soup =>
    (scrapeDevelopers env.now (soup.findAll "article" (some "Box-row")), none)
  | .error e => ([], some e)

/-- The observable outcome of one run of `main`: which error messages were
printed, whether each writer was invoked and what it returned and wrote,
and what the reporter emitted (`none` = the step never ran). -/
structure RunTrace where
  fetchErrorMsg : Option String
  noDataMsg : Bool
  csvResult : Option (Bool × Option (List (List (List Char))))
  jsonResult : Option (Bool × Option JsonDoc)
  report : Option ReportOutput
deriving Repr, DecidableEq

/-- `main` (lines 172–208; `main` is reserved in Lean, hence `mainRun`):
scrape; if no records were obtained, print
`No data scraped` and return before any file work; otherwise run both
writers and then the reporter, each unconditionally. -/
def mainRun (env : RunEnv) : RunTrace :=
  let scraped := scrape_trending_developers env
  if scraped.1.isEmpty then
    { fetchErrorMsg := scraped.2, noDataMsg := true,
      csvResult := none, jsonResult := none, report := none }
  else
    { fetchErrorMsg := scraped.2, noDataMsg := false,
      csvResult := some (save_to_csv scraped.1 env.csvWrite),
      jsonResult := some (save_to_json scraped.1 env.now env.jsonWrite),
      report := some (display_results scraped.1) }

/-! ## Sample fixtures used by witnesses and counterexamples -/

/-- A heading link with a surrounding-whitespace text and an `href`. -/
def sampleNameLink : Node :=
  .elem "a" "" [("href", "/alice".toList)] [.text "  Alice A  ".toList]

/-- The `h1.h3` heading of the sample row. -/
def sampleHeading : Node :=
  .elem "h1" "h3 lh-condensed" [] [sampleNameLink]

/-- A complete sample listing row; the avatar `src` deliberately carries
edge whitespace. -/
def sampleRow : Node :=
  .elem "article" "Box-row" []
    [ sampleHeading
    , .elem "p" "f4 text-normal" []
        [.elem "a" "" [("href", "/alice".toList)] [.text " alice ".toList]]
    , .elem "img" "avatar-user" [("src", " http://a.png ".toList)] []
    , .elem "article" "" []
        [ .elem "h1" "h4" [] [.elem "a" "" [] [.text " repo1 ".toList]]
        , .elem "div" "f6 color-fg-muted mt-1" [] [.text "  a desc  ".toList]]]

/-- A row with neither name nor username: it is extracted as a candidate
but filtered from the retained output. -/
def emptyRow : Node := .elem "article" "Box-row" [] []

/-! ## Helper lemmas about stripping -/

/-- A text field has no whitespace at either edge. -/
def noEdgeWhitespace (l : List Char) : Prop :=
  (∀ c, l.head? = some c → c.isWhitespace = false) ∧
  (∀ c, l.getLast? = some c → c.isWhitespace = false)

theorem head?_dropWhile_not (p : Char → Bool) (l : List Char) (c : Char)
    (h : (l.dropWhile p).head? = some c) : p c = false := by
  induction l with
  | nil => simp [List.dropWhile] at h
  | cons a t ih =>
    rw [List.dropWhile_cons] at h
    by_cases hp : p a
    · rw [if_pos hp] at h
      exact ih h
    · rw [if_neg hp] at h
      simp only [List.head?_cons, Option.some.injEq] at h
      rw [← h]
      exact Bool.eq_false_iff.mpr hp

theorem getLast?_dropWhile (p : Char → Bool) (l : List Char)
    (h : l.dropWhile p ≠ []) : (l.dropWhile p).getLast? = l.getLast? := by
  induction l with
  | nil => simp [List.dropWhile] at h
  | cons a t ih =>
    rw [List.dropWhile_cons] at h ⊢
    by_cases hp : p a
    · rw [if_pos hp] at h ⊢
      have ht : t ≠ [] := by
        intro h0
        rw [h0] at h
        simp [List.dropWhile] at h
      rw [ih h]
      cases t with
      | nil => exact absurd rfl ht
      | cons b t2 => rw [List.getLast?_cons_cons]
    · rw [if_neg hp]

theorem pyStrip_head (l : List Char) (c : Char)
    (h : (pyStrip l).head? = some c) : c.isWhitespace = false := by
  unfold pyStrip at h
  rw [List.head?_reverse] at h
  have hne : (l.dropWhile Char.isWhitespace).reverse.dropWhile Char.isWhitespace ≠ [] := by
    intro h0
    rw [h0] at h
    simp at h
  rw [getLast?_dropWhile _ _ hne, List.getLast?_reverse] at h
  exact head?_dropWhile_not _ _ _ h

theorem pyStrip_getLast (l : List Char) (c : Char)
    (h : (pyStrip l).getLast? = some c) : c.isWhitespace = false := by
  unfold pyStrip at h
  rw [List.getLast?_reverse] at h
  exact head?_dropWhile_not _ _ _ h

theorem noEdge_pyStrip (l : List Char) : noEdgeWhitespace (pyStrip l) :=
  ⟨fun c h => pyStrip_head l c h, fun c h => pyStrip_getLast l c h⟩

theorem noEdge_nil : noEdgeWhitespace ([] : List Char) := by
  constructor <;> intro c h <;> simp at h

theorem noEdge_of_stripped (l : List Char)
    (h : l = [] ∨ ∃ t, l = pyStrip t) : noEdgeWhitespace l := by
  rcases h with rfl | ⟨t, rfl⟩
  · exact noEdge_nil
  · exact noEdge_pyStrip t

/-! ## Helper lemmas about the per-field extractors -/

theorem extractName_fst_stripped (e : Node) :
    (extractName e).1 = [] ∨ ∃ t, (extractName e).1 = pyStrip t := by
  rcases h1 : e.findSel "h1" (some "h3") with _ | nl
  · exact Or.inl (by simp [extractName, h1])
  · rcases h2 : nl.findSel "a" none with _ | lk
    · exact Or.inr ⟨nl.getText, by simp [extractName, h1, h2]⟩
    · exact Or.inr ⟨lk.getText, by simp [extractName, h1, h2]⟩

theorem extractUsername_stripped (e : Node) :
    extractUsername e = [] ∨ ∃ t, extractUsername e = pyStrip t := by
  rcases h1 : e.findSel "p" (some "f4") with _ | ue
  · exact Or.inl (by simp [extractUsername, h1])
  · rcases h2 : ue.findSel "a" none with _ | ul
    · exact Or.inl (by simp [extractUsername, h1, h2])
    · exact Or.inr ⟨ul.getText, by simp [extractUsername, h1, h2]⟩

theorem extractRepoName_stripped (ra : Node) :
    extractRepoName ra = [] ∨ ∃ t, extractRepoName ra = pyStrip t := by
  rcases h1 : ra.findSel "h1" (some "h4") with _ | ne2
  · exact Or.inl (by simp [extractRepoName, h1])
  · rcases h2 : ne2.findSel "a" none with _ | rl
    · exact Or.inr ⟨ne2.getText, by simp [extractRepoName, h1, h2]⟩
    · exact Or.inr ⟨rl.getText, by simp [extractRepoName, h1, h2]⟩

theorem extractRepoDesc_stripped (ra : Node) :
    extractRepoDesc ra = [] ∨ ∃ t, extractRepoDesc ra = pyStrip t := by
  rcases h1 : ra.findSel "div" (some "f6 color-fg-muted mt-1") with _ | de
  · exact Or.inl (by simp [extractRepoDesc, h1])
  · exact Or.inr ⟨de.getText, by simp [extractRepoDesc, h1]⟩

theorem extractRepo_fst_stripped (e : Node) :
    (extractRepo e).1 = [] ∨ ∃ t, (extractRepo e).1 = pyStrip t := by
  rcases h1 : e.findSel "article" none with _ | ra
  · exact Or.inl (by simp [extractRepo, h1])
  · have := extractRepoName_stripped ra
    rcases this with h | ⟨t, ht⟩
    · exact Or.inl (by simp [extractRepo, h1, h])
    · exact Or.inr ⟨t, by simp [extractRepo, h1, ht]⟩

theorem extractRepo_snd_stripped (e : Node) :
    (extractRepo e).2 = [] ∨ ∃ t, (extractRepo e).2 = pyStrip t := by
  rcases h1 : e.findSel "article" none with _ | ra
  · exact Or.inl (by simp [extractRepo, h1])
  · have := extractRepoDesc_stripped ra
    rcases this with h | ⟨t, ht⟩
    · exact Or.inl (by simp [extractRepo, h1, h])
    · exact Or.inr ⟨t, by simp [extractRepo, h1, ht]⟩

/-! ## Helper lemmas about the extraction loop -/

theorem scrapeRows_ok_eq_filter (now : List Char) :
    ∀ (es : List Node) (i : Nat),
      scrapeRows (fun j e => Except.ok (parseDeveloper now j e)) i es =
        (candidatesFrom now i es).filter retained := by
  intro es
  induction es with
  | nil => intro i; rfl
  | cons e rest ih =>
    intro i
    rw [scrapeRows, candidatesFrom, List.filter_cons, ih (i + 1)]

/-- `scrapeDevelopers` is exactly the candidate sequence filtered by the
name/username test. -/
theorem scrape_eq_filter (now : List Char) (elements : List Node) :
    scrapeDevelopers now elements = (candidates now elements).filter retained :=
  scrapeRows_ok_eq_filter now elements 0

theorem candidatesFrom_rank (now : List Char) :
    ∀ (es : List Node) (i j : Nat), j < es.length →
      ((candidatesFrom now i es).getD j default).rank = i + j + 1 := by
  intro es
  induction es with
  | nil => intro i j h; exact absurd h (Nat.not_lt_zero j)
  | cons e rest ih =>
    intro i j h
    cases j with
    | zero => rfl
    | succ j2 =>
      rw [candidatesFrom, List.getD_cons_succ]
      rw [ih (i + 1) j2 (Nat.lt_of_succ_lt_succ h)]
      omega

theorem mem_scrapeRows (parse : Nat → Node → Except String Developer) :
    ∀ (es : List Node) (i : Nat) (d : Developer), d ∈ scrapeRows parse i es →
      ∃ j, j < es.length ∧ parse (i + j) (es.getD j (Node.text [])) = Except.ok d ∧
        retained d = true := by
  intro es
  induction es with
  | nil => intro i d h; simp [scrapeRows] at h
  | cons e rest ih =>
    intro i d h
    rw [scrapeRows] at h
    split at h
    · next dv hp =>
      by_cases hr : retained dv = true
      · rw [if_pos hr] at h
        rcases List.mem_cons.mp h with rfl | h2
        · exact ⟨0, Nat.succ_pos _, by rw [Nat.add_zero, List.getD_cons_zero]; exact hp, hr⟩
        · obtain ⟨j, hj, hok, hr2⟩ := ih (i + 1) d h2
          refine ⟨j + 1, Nat.succ_lt_succ hj, ?_, hr2⟩
          rw [List.getD_cons_succ]
          rw [show i + (j + 1) = i + 1 + j by omega]
          exact hok
      · rw [if_neg hr] at h
        obtain ⟨j, hj, hok, hr2⟩ := ih (i + 1) d h
        refine ⟨j + 1, Nat.succ_lt_succ hj, ?_, hr2⟩
        rw [List.getD_cons_succ]
        rw [show i + (j + 1) = i + 1 + j by omega]
        exact hok
    · next msg hp =>
      obtain ⟨j, hj, hok, hr2⟩ := ih (i + 1) d h
      refine ⟨j + 1, Nat.succ_lt_succ hj, ?_, hr2⟩
      rw [List.getD_cons_succ]
      rw [show i + (j + 1) = i + 1 + j by omega]
      exact hok

/-! ## Claim theorems -/

/-- C1, counterexample: the reporter's truncation does NOT render an
over-budget field as exactly `b` characters — a 19-character username
against the 18-character budget renders as 21 characters (`s[:18]`
followed by the 3-character marker), not 18. -/
theorem reporter_truncation_claim_false :
    (List.replicate 19 'a').length > 18 ∧
    ¬((truncateField (List.replicate 19 'a') 18).length = 18) := by
  constructor
  · decide
  · decide

/-- C1 (amended): each reporter column applies `truncateField` with its
fixed budget (username 18, name 23, popular repo 23, description 28); a
field longer than its budget `b` renders as its first `b` characters
followed by the 3-character ellipsis marker — `b + 3` characters in
total — and a field at or under `b` renders unmodified. -/
theorem reporter_truncation (d : Developer) (s : List Char) (b : Nat) :
    displayRow d = [(toString d.rank).toList,
      truncateField d.username 18, truncateField d.name 23,
      truncateField d.popular_repo 23, truncateField d.repo_description 28] ∧
    (b < s.length → truncateField s b = s.take b ++ "...".toList ∧
      (truncateField s b).length = b + 3) ∧
    (s.length ≤ b → truncateField s b = s) := by
  refine ⟨rfl, ?_, ?_⟩
  · intro h
    have hgt : s.length > b := h
    unfold truncateField
    rw [if_pos hgt]
    refine ⟨rfl, ?_⟩
    rw [List.length_append, List.length_take]
    have h3 : ("...".toList).length = 3 := rfl
    rw [h3]
    omega
  · intro h
    unfold truncateField
    rw [if_neg (by omega)]

/-- Witness for C1's amended theorem at a concrete 19-character field. -/
theorem reporter_truncation_witness :
    (truncateField (List.replicate 19 'a') 18).length = 18 + 3 :=
  ((reporter_truncation default (List.replicate 19 'a') 18).2.1 (by decide)).2

/-- C2: the retained output is exactly the candidate sequence filtered by
the name/username test, and the candidate at 0-based position `j` carries
rank `j + 1`; hence every retained record's rank is the 1-based position
of its row in the original extracted sequence, and discarding a candidate
changes no other record's rank. -/
theorem ranks_are_source_positions (now : List Char) (elements : List Node) :
    scrapeDevelopers now elements = (candidates now elements).filter retained ∧
    ∀ j, j < elements.length →
      ((candidates now elements).getD j default).rank = j + 1 := by
  refine ⟨scrape_eq_filter now elements, ?_⟩
  intro j hj
  have h := candidatesFrom_rank now elements 0 j hj
  simpa [candidates] using h

/-- Witness for C2 on a three-row listing whose middle row is empty: the
candidate at position 2 carries rank 3. -/
theorem ranks_are_source_positions_witness :
    ((candidates ['T'] [sampleRow, emptyRow, sampleRow]).getD 2 default).rank = 3 :=
  (ranks_are_source_positions ['T'] [sampleRow, emptyRow, sampleRow]).2 2 (by decide)

/-- C3: every record the extractor retains has a non-empty name or a
non-empty username, and the retained sequence is a sublist of the
candidate sequence (surviving records keep their relative source
order). -/
theorem retained_have_identity (now : List Char) (elements : List Node) :
    (∀ d ∈ scrapeDevelopers now elements, d.name ≠ [] ∨ d.username ≠ []) ∧
    List.Sublist (scrapeDevelopers now elements) (candidates now elements) := by
  constructor
  · intro d hd
    rw [scrape_eq_filter] at hd
    have hr := (List.mem_filter.mp hd).2
    by_cases hn : d.name = []
    · right
      intro hu
      rw [retained, hn, hu] at hr
      simp at hr
    · exact Or.inl hn
  · rw [scrape_eq_filter]
    exact List.filter_sublist _

/-- Witness for C3: the sample record retained from a one-row listing has
an identity. -/
theorem retained_have_identity_witness :
    (parseDeveloper ['T'] 0 sampleRow).name ≠ [] ∨
    (parseDeveloper ['T'] 0 sampleRow).username ≠ [] :=
  (retained_have_identity ['T'] [sampleRow]).1 (parseDeveloper ['T'] 0 sampleRow)
    (by decide)

/-- C4: on the empty record sequence both writers return failure
immediately and produce no file, whatever the I/O environment would have
done. -/
theorem writers_reject_empty (w1 w2 : Except String Unit) (now : List Char) :
    save_to_csv [] w1 = (false, none) ∧ save_to_json [] now w2 = (false, none) :=
  ⟨rfl, rfl⟩

/-- C5: each writer turns an I/O failure into the return value `false`
with no file produced (the exception never escapes the writer), and a
failure injected into one writer's I/O changes neither the other writer's
result nor the report step in a full run. -/
theorem writers_catch_failures_independently (devs : List Developer)
    (now : List Char) (m : String) (env : RunEnv) :
    save_to_csv devs (Except.error m) = (false, none) ∧
    save_to_json devs now (Except.error m) = (false, none) ∧
    (mainRun { env with csvWrite := Except.error m }).jsonResult =
      (mainRun env).jsonResult ∧
    (mainRun { env with csvWrite := Except.error m }).report =
      (mainRun env).report ∧
    (mainRun { env with jsonWrite := Except.error m }).csvResult =
      (mainRun env).csvResult ∧
    (mainRun { env with jsonWrite := Except.error m }).report =
      (mainRun env).report := by
  obtain ⟨fr, rnow, cw, jw⟩ := env
  refine ⟨?_, ?_, ?_, ?_, ?_, ?_⟩
  · unfold save_to_csv
    split
    · rfl
    · rfl
  · unfold save_to_json
    split
    · rfl
    · rfl
  · cases fr
    · rfl
    · unfold mainRun scrape_trending_developers
      dsimp only
      split <;> rfl
  · cases fr
    · rfl
    · unfold mainRun scrape_trending_developers
      dsimp only
      split <;> rfl
  · cases fr
    · rfl
    · unfold mainRun scrape_trending_developers
      dsimp only
      split <;> rfl
  · cases fr
    · rfl
    · unfold mainRun scrape_trending_developers
      dsimp only
      split <;> rfl

/-- C6: on a non-empty record list with a successful write, the structured
writer emits the single envelope object (keys `scraped_at`,
`total_developers`, `developers`) whose `total_developers` equals the
length of its `developers` array, which is the input record list itself —
so reading the document back recovers the records in their original
order. -/
theorem json_envelope_roundtrip (devs : List Developer) (now : List Char)
    (h : devs ≠ []) :
    (save_to_json devs now (Except.ok ())).1 = true ∧
    (save_to_json devs now (Except.ok ())).2 =
      some { scraped_at := now, total_developers := devs.length,
             developers := devs } ∧
    ∀ doc, (save_to_json devs now (Except.ok ())).2 = some doc →
      doc.total_developers = doc.developers.length ∧
      doc.developers = devs ∧ doc.total_developers = devs.length := by
  have hemp : devs.isEmpty = false := by
    cases devs with
    | nil => exact absurd rfl h
    | cons a t => rfl
  unfold save_to_json
  rw [hemp]
  refine ⟨rfl, rfl, ?_⟩
  intro doc hdoc
  have hd2 : some (JsonDoc.mk now devs.length devs) = some doc := by
    simpa using hdoc
  rw [← Option.some.inj hd2]
  exact ⟨rfl, rfl, rfl⟩

/-- Witness for C6 at a one-record list. -/
theorem json_envelope_roundtrip_witness :
    (save_to_json [default] ['T'] (Except.ok ())).2 =
      some { scraped_at := ['T'], total_developers := 1,
             developers := [default] } :=
  (json_envelope_roundtrip [default] ['T'] (by decide)).2.1

/-- C7, counterexample: not every extracted field is whitespace-trimmed —
the sample row's avatar `src` value ` http://a.png ` is taken verbatim,
so the record's `avatar_url` starts with a whitespace character. -/
theorem trimmed_fields_claim_false :
    (parseDeveloper ['T'] 0 sampleRow).avatar_url.head? = some ' ' ∧
    (' ').isWhitespace = true := by
  constructor
  · decide
  · decide

/-- C7 (amended): the four `get_text()`-based fields (`name`, `username`,
`popular_repo`, `repo_description`) carry no leading or trailing
whitespace in any output record, internal whitespace untouched; but
`avatar_url` is the `src` attribute verbatim and the `href` enters
`profile_url` verbatim, neither trimmed. -/
theorem trimmed_fields (now : List Char) (i : Nat) (e : Node) :
    noEdgeWhitespace (parseDeveloper now i e).name ∧
    noEdgeWhitespace (parseDeveloper now i e).username ∧
    noEdgeWhitespace (parseDeveloper now i e).popular_repo ∧
    noEdgeWhitespace (parseDeveloper now i e).repo_description ∧
    (∀ img v, e.findSel "img" (some "avatar-user") = some img →
      img.getAttr "src" = some v → (parseDeveloper now i e).avatar_url = v) ∧
    (∀ nl lk v, e.findSel "h1" (some "h3") = some nl →
      nl.findSel "a" none = some lk → lk.getAttr "href" = some v →
      (parseDeveloper now i e).profile_url = githubOrigin ++ v) := by
  refine ⟨noEdge_of_stripped _ (extractName_fst_stripped e),
          noEdge_of_stripped _ (extractUsername_stripped e),
          noEdge_of_stripped _ (extractRepo_fst_stripped e),
          noEdge_of_stripped _ (extractRepo_snd_stripped e), ?_, ?_⟩
  · intro img v h1 h2
    show extractAvatar e = v
    simp [extractAvatar, h1, h2]
  · intro nl lk v h1 h2 h3
    show (extractName e).2 = githubOrigin ++ v
    simp [extractName, h1, h2, h3, pyStrOfOpt]

/-- Witness for C7's amended theorem: the sample record's name starts with
the non-whitespace character `A` after stripping. -/
theorem trimmed_fields_witness : ('A').isWhitespace = false :=
  (trimmed_fields ['T'] 0 sampleRow).1.1 'A' (by decide)

/-- C8: when a row's `h1.h3` heading holds a link with an `href`, the
record's `profile_url` is the fixed origin `https://github.com` followed
by the `href` verbatim and `name` is the link's (stripped) text; with a
heading but no link, `name` is the heading's own (stripped) text and
`profile_url` is empty; with no heading, both are empty. -/
theorem profile_link_resolution (now : List Char) (i : Nat) (e : Node) :
    (∀ name_link link h2, e.findSel "h1" (some "h3") = some name_link →
      name_link.findSel "a" none = some link →
      link.getAttr "href" = some h2 →
      (parseDeveloper now i e).profile_url = githubOrigin ++ h2 ∧
      (parseDeveloper now i e).name = pyStrip link.getText) ∧
    (∀ name_link, e.findSel "h1" (some "h3") = some name_link →
      name_link.findSel "a" none = none →
      (parseDeveloper now i e).name = pyStrip name_link.getText ∧
      (parseDeveloper now i e).profile_url = []) ∧
    (e.findSel "h1" (some "h3") = none →
      (parseDeveloper now i e).name = [] ∧
      (parseDeveloper now i e).profile_url = []) := by
  refine ⟨?_, ?_, ?_⟩
  · intro nl lk h2 hfind hlink hattr
    constructor
    · show (extractName e).2 = githubOrigin ++ h2
      simp [extractName, hfind, hlink, hattr, pyStrOfOpt]
    · show (extractName e).1 = pyStrip lk.getText
      simp [extractName, hfind, hlink]
  · intro nl hfind hlink
    constructor
    · show (extractName e).1 = pyStrip nl.getText
      simp [extractName, hfind, hlink]
    · show (extractName e).2 = []
      simp [extractName, hfind, hlink]
  · intro hfind
    constructor
    · show (extractName e).1 = []
      simp [extractName, hfind]
    · show (extractName e).2 = []
      simp [extractName, hfind]

/-- Witness for C8 on the sample row: its profile URL is the origin
followed by `/alice`. -/
theorem profile_link_resolution_witness :
    (parseDeveloper ['T'] 0 sampleRow).profile_url =
      githubOrigin ++ "/alice".toList :=
  (((profile_link_resolution ['T'] 0 sampleRow).1 sampleHeading sampleNameLink
      ("/alice".toList) rfl rfl rfl)).1

/-- C9: when the fetch fails (timeout, network failure, or a non-success
status raised by `raise_for_status`, all surfacing as a caught
`RequestException`), the run ends with the failure printed and the
"no data" early return: neither writer is invoked, no file is produced,
and the reporter never runs — the abort is a normal return, not an
unhandled fault. -/
theorem fetch_failure_aborts_run (env : RunEnv) (e : String)
    (h : env.fetchResult = Except.error e) :
    mainRun env = { fetchErrorMsg := some e, noDataMsg := true,
                    csvResult := none, jsonResult := none, report := none } := by
  obtain ⟨fr, rnow, cw, jw⟩ := env
  cases fr with
  | error msg =>
    have hm : msg = e := by
      have h2 : Except.error (α := Node) msg = Except.error e := h
      exact Except.error.inj h2
    rw [hm]
    rfl
  | ok soup =>
    exact absurd h (by simp)

/-- Witness for C9 at a concrete timed-out fetch. -/
theorem fetch_failure_aborts_run_witness :
    mainRun { fetchResult := Except.error "timeout", now := ['T'],
              csvWrite := Except.ok (), jsonWrite := Except.ok () } =
      { fetchErrorMsg := some "timeout", noDataMsg := true,
        csvResult := none, jsonResult := none, report := none } :=
  fetch_failure_aborts_run _ "timeout" rfl

/-- C10: every record in the retained output of the extraction loop comes
from a row whose entire per-row processing succeeded (`Except.ok` with a
complete 8-field `Developer`) and which passed the retention test; a row
whose processing fails partway contributes nothing, because appending
happens only after the whole record is built. -/
theorem retained_records_complete (parse : Nat → Node → Except String Developer)
    (elements : List Node) (d : Developer)
    (hd : d ∈ scrapeRows parse 0 elements) :
    ∃ j, j < elements.length ∧
      parse j (elements.getD j (Node.text [])) = Except.ok d ∧
      retained d = true := by
  obtain ⟨j, hj, hok, hr⟩ := mem_scrapeRows parse elements 0 d hd
  rw [Nat.zero_add] at hok
  exact ⟨j, hj, hok, hr⟩

/-- Witness for C10 on a one-row listing with the script's own row
parser. -/
theorem retained_records_complete_witness :
    ∃ j, j < ([sampleRow] : List Node).length ∧
      (fun i e => Except.ok (parseDeveloper ['T'] i e) :
        Nat → Node → Except String Developer) j
        (([sampleRow] : List Node).getD j (Node.text [])) =
        Except.ok (parseDeveloper ['T'] 0 sampleRow) ∧
      retained (parseDeveloper ['T'] 0 sampleRow) = true :=
  retained_records_complete (fun i e => Except.ok (parseDeveloper ['T'] i e))
    [sampleRow] (parseDeveloper ['T'] 0 sampleRow) (by decide)
